import Mathlib

/-!
Shallow embedding of the `pkg/p2p` layer of the node-crawler repository
(`p2p.go`, `protocol.go`): the probe backend's inbound-message state machine
(`ProbeBackend.handleMsg`), the per-session loop (`ProbeBackend.handle`),
and the crawler's aggregation loop and shutdown (`Crawler.Start`,
`Crawler.Stop`, `ProbeBackend.Close`).

Go in-place mutation of the peer session is modelled by explicit state
passing: `handleMsg` returns the session state paired with an optional
error, so that state changes made before an error path would be visible.
Go map mutation in the crawler is modelled by a small heap of maps indexed
by address, so that freshness of the output catalogue is a provable frame
property. Closing a Go channel twice panics; channel close is therefore
modelled as a fallible operation.
-/

namespace NodeCrawler

/-- Peer classification status. `protocol.go` uses the constants
`PeerUseless` and `PeerEvil`; the remaining states are the spec's
`Unknown`/`Fetching` (the peer struct itself is outside `src/`). -/
inductive PeerStatus
  | unknown
  | fetching
  | useless
  | evil
  deriving DecidableEq, Repr

/-- The epoch-carrying consensus hash (`hash.Event` from lachesis-base):
its `Epoch()` accessor reads the epoch encoded in the hash; the remaining
bytes are opaque here. -/
structure AtroposHash where
  epoch : Nat
  rest : Nat
  deriving DecidableEq, Repr

/-- `gossip.PeerProgress`: epoch, last block index, last block Atropos hash. -/
structure PeerProgress where
  epoch : Nat
  lastBlockIdx : Nat
  lastBlockAtropos : AtroposHash
  deriving DecidableEq, Repr

/-- The per-session mutable state touched by `handleMsg`: the peer's
`Status` and `progress` fields. -/
structure PeerState where
  status : PeerStatus
  progress : PeerProgress
  deriving DecidableEq, Repr

/-- Gossip message codes (from go-opera's `gossip` protocol, referenced by
name in `protocol.go`). -/
def HandshakeMsg : Nat := 0
def ProgressMsg : Nat := 1
def EvmTxsMsg : Nat := 2
def NewEvmTxHashesMsg : Nat := 3
def GetEvmTxsMsg : Nat := 4
def EventsMsg : Nat := 5
def NewEventIDsMsg : Nat := 6
def GetEventsMsg : Nat := 7
def RequestEventsStream : Nat := 8
def EventsStreamResponse : Nat := 9
def RequestBVsStream : Nat := 10
def BVsStreamResponse : Nat := 11
def RequestBRsStream : Nat := 12
def BRsStreamResponse : Nat := 13
def RequestEPsStream : Nat := 14
def EPsStreamResponse : Nat := 15

/-- Gossip protocol error codes used by `errResp` in `protocol.go`. -/
inductive ErrCode
  | ErrMsgTooLarge
  | ErrDecode
  | ErrInvalidMsgCode
  | ErrExtraStatusMsg
  | ErrEmptyMessage
  deriving DecidableEq, Repr

/-- Errors `handleMsg` can return: a failed read from the transport, an
`errResp`-tagged protocol error, or the plain
`errors.New("expected either events or event hashes")` from the
stream-chunk contents check. -/
inductive HandleErr
  | readError
  | resp (code : ErrCode)
  | eitherEventsOrHashes
  deriving DecidableEq, Repr

/-- Decoded view of a message payload. `msg.Decode` into a mismatched
target fails, so a body of the wrong shape for the message code decodes
to an error; `undecodable` stands for bytes that fail to decode at all. -/
inductive MsgBody
  | undecodable
  | progressBody (pg : PeerProgress)
  | eventsBody (events : List Nat)
  | hashesBody (hashes : List AtroposHash)
  | chunkBody (ids : List AtroposHash) (events : List Nat)
  | otherBody
  deriving DecidableEq, Repr

/-- An inbound wire message: code, encoded size, decoded body. -/
structure Msg where
  code : Nat
  size : Nat
  body : MsgBody
  deriving DecidableEq, Repr

/-- One `p.rw.ReadMsg()` outcome: a transport read error or a message. -/
inductive Inbound
  | readErr
  | msg (m : Msg)
  deriving DecidableEq, Repr

/-- `checkLenLimits` from `protocol.go`: empty payload is
`ErrEmptyMessage`, more than `hardLimitItems` items is `ErrMsgTooLarge`.
The hard limit is passed as a parameter (its defining constant lives in a
file outside `src/`). -/
def checkLenLimits (hardLimit : Nat) (size : Nat) : Option ErrCode :=
  if size ≤ 0 then some ErrCode.ErrEmptyMessage
  else if size > hardLimit then some ErrCode.ErrMsgTooLarge
  else none

/-- The `gossip.ProgressMsg` arm of `handleMsg`'s switch: decode a
`PeerProgress` (a mismatched body is a decode error), store it in
`p.progress`, then classify: `Evil` if the reported epoch exceeds the
epoch of the reported Atropos hash, else `Useless`. -/
def progressArm (p : PeerState) (body : MsgBody) : PeerState × Option HandleErr :=
  match body with
  | MsgBody.progressBody pg =>
    let p := { p with progress := pg }
    if pg.epoch > pg.lastBlockAtropos.epoch then
      ({ p with status := PeerStatus.evil }, none)
    else
      ({ p with status := PeerStatus.useless }, none)
  | _ => (p, some (HandleErr.resp ErrCode.ErrDecode))

/-- The `gossip.EventsMsg` arm: decode `inter.EventPayloads`, check
length limits, log only. -/
def eventsArm (hardLimit : Nat) (p : PeerState) (body : MsgBody) :
    PeerState × Option HandleErr :=
  match body with
  | MsgBody.eventsBody events =>
    match checkLenLimits hardLimit events.length with
    | some e => (p, some (HandleErr.resp e))
    | none => (p, none)
  | _ => (p, some (HandleErr.resp ErrCode.ErrDecode))

/-- The `gossip.NewEventIDsMsg` arm: decode `hash.Events` announces,
check length limits, log only. -/
def newEventIDsArm (hardLimit : Nat) (p : PeerState) (body : MsgBody) :
    PeerState × Option HandleErr :=
  match body with
  | MsgBody.hashesBody announces =>
    match checkLenLimits hardLimit announces.length with
    | some e => (p, some (HandleErr.resp e))
    | none => (p, none)
  | _ => (p, some (HandleErr.resp ErrCode.ErrDecode))

/-- The `gossip.GetEventsMsg` arm: decode `hash.Events` requests, check
length limits, log only. -/
def getEventsArm (hardLimit : Nat) (p : PeerState) (body : MsgBody) :
    PeerState × Option HandleErr :=
  match body with
  | MsgBody.hashesBody requests =>
    match checkLenLimits hardLimit requests.length with
    | some e => (p, some (HandleErr.resp e))
    | none => (p, none)
  | _ => (p, some (HandleErr.resp ErrCode.ErrDecode))

/-- The `gossip.EventsStreamResponse` arm: decode a `dagChunk`; it must
carry identifiers or full events, never neither and never both; full
events classify the session `Useless`. -/
def streamChunkArm (p : PeerState) (body : MsgBody) : PeerState × Option HandleErr :=
  match body with
  | MsgBody.chunkBody ids events =>
    if events.length < 1 ∧ ids.length < 1 then
      (p, some HandleErr.eitherEventsOrHashes)
    else if events.length > 0 ∧ ids.length > 0 then
      (p, some HandleErr.eitherEventsOrHashes)
    else if events.length > 0 then
      ({ p with status := PeerStatus.useless }, none)
    else (p, none)
  | _ => (p, some (HandleErr.resp ErrCode.ErrDecode))

/-- The post-read part of `ProbeBackend.handleMsg`: the
`protocolMaxMsgSize` check, then the switch on `msg.Code`. Each
non-trivial arm of the Go switch is its own definition above; `break`
arms leave the state alone and return no error; an unrecognized code is
`ErrInvalidMsgCode`. -/
def dispatchMsg (maxMsgSize hardLimit : Nat) (p : PeerState) (m : Msg) :
    PeerState × Option HandleErr :=
  if m.size > maxMsgSize then
    (p, some (HandleErr.resp ErrCode.ErrMsgTooLarge))
  else if m.code = HandshakeMsg then
    -- Status messages should never arrive after the handshake
    (p, some (HandleErr.resp ErrCode.ErrExtraStatusMsg))
  else if m.code = ProgressMsg then progressArm p m.body
  else if m.code = EvmTxsMsg then (p, none)
  else if m.code = NewEvmTxHashesMsg then (p, none)
  else if m.code = GetEvmTxsMsg then (p, none)
  else if m.code = EventsMsg then eventsArm hardLimit p m.body
  else if m.code = NewEventIDsMsg then newEventIDsArm hardLimit p m.body
  else if m.code = GetEventsMsg then getEventsArm hardLimit p m.body
  else if m.code = RequestEventsStream then (p, none)
  else if m.code = EventsStreamResponse then streamChunkArm p m.body
  else if m.code = RequestBVsStream then (p, none)
  else if m.code = BVsStreamResponse then (p, none)
  else if m.code = RequestBRsStream then (p, none)
  else if m.code = BRsStreamResponse then (p, none)
  else if m.code = RequestEPsStream then (p, none)
  else if m.code = EPsStreamResponse then (p, none)
  else (p, some (HandleErr.resp ErrCode.ErrInvalidMsgCode))

/-- `ProbeBackend.handleMsg` from `protocol.go`, as explicit state
passing: given the session state and one read outcome, return the state
as mutated by the executed assignments together with the error returned,
if any. `maxMsgSize` stands for `protocolMaxMsgSize` and `hardLimit` for
`hardLimitItems` (constants defined outside `src/`). -/
def handleMsg (maxMsgSize hardLimit : Nat) (p : PeerState) (inb : Inbound) :
    PeerState × Option HandleErr :=
  match inb with
  | Inbound.readErr => (p, some HandleErr.readError)
  | Inbound.msg m => dispatchMsg maxMsgSize hardLimit p m

/-- The `common.NodeJSON` value emitted by `handle` on terminal
classification: the crawl output records the reported block height
(`p.progress.LastBlockIdx`). -/
structure NodeRecord where
  lastBlockIdx : Nat
  deriving DecidableEq, Repr

/-- Whether a status is terminal for the session loop: the `switch
p.Status` in `handle` matches `PeerUseless, PeerEvil`. -/
def isTerminal (s : PeerStatus) : Bool :=
  s = PeerStatus.useless || s = PeerStatus.evil

/-- How a session's message loop ended. -/
inductive LoopEnd
  | errored (e : HandleErr)
  | emitted (r : NodeRecord)
  | starved (p : PeerState)
  deriving DecidableEq, Repr

/-- The message loop inside `ProbeBackend.handle` (`for { ... }`): call
`handleMsg`; on error return it (no emission); otherwise, if the status
is now `PeerUseless` or `PeerEvil`, emit one `NodeJSON` onto the output
queue and return. Modelled over a finite inbound stream; `starved` is
the model artifact for a stream that ran out (the real loop would block
on the next read). Returns the emitted records alongside the ending. -/
def handleLoop (maxMsgSize hardLimit : Nat) (p : PeerState) :
    List Inbound → List NodeRecord × LoopEnd
  | [] => ([], LoopEnd.starved p)
  | inb :: rest =>
    match handleMsg maxMsgSize hardLimit p inb with
    | (_, some e) => ([], LoopEnd.errored e)
    | (p', none) =>
      if isTerminal p'.status then
        ([⟨p'.progress.lastBlockIdx⟩], LoopEnd.emitted ⟨p'.progress.lastBlockIdx⟩)
      else
        handleLoop maxMsgSize hardLimit p' rest

/-- Whether `pat` occurs at the start of the character list. -/
def listStartsWith : List Char → List Char → Bool
  | [], _ => true
  | _ :: _, [] => false
  | c :: cs, d :: ds => (c == d) && listStartsWith cs ds

/-- Whether `pat` occurs as a contiguous sublist. -/
def listContains (pat : List Char) : List Char → Bool
  | [] => pat.isEmpty
  | d :: ds => listStartsWith pat (d :: ds) || listContains pat ds

/-- `strings.Contains(strings.ToLower(name), "opera")`, at the character
level (the identifier and realistic client names are ASCII, where Go's
`ToLower` and `Char.toLower` agree). -/
def nameAdvertisesOpera (name : String) : Bool :=
  listContains "opera".data (name.data.map Char.toLower)

/-- The "Check useless" block at the top of `ProbeBackend.handle`:
`useless := discfilter.Banned(...)`; a name not containing "opera"
forces `useless = true`; an untrusted useless peer is disconnected with
`p2p.DiscUselessPeer` before the handshake is executed. -/
def uselessDisconnect (banned trusted : Bool) (name : String) : Bool :=
  let useless := banned
  let useless := if !(nameAdvertisesOpera name) then true else useless
  !trusted && useless

/-- How a whole `ProbeBackend.handle` session ended. -/
inductive SessionEnd
  | discUselessPeer
  | handshakeFailed
  | registrationFailed
  | loopEnded (e : LoopEnd)
  deriving DecidableEq, Repr

/-- `ProbeBackend.handle`: the pre-handshake useless check, then the
handshake (outcome `hsOK`, decided by the external transport), then
registration (outcome `regOK`, a duplicate identifier fails), then the
message loop. Returns emitted records and the session ending. -/
def handle (banned trusted : Bool) (name : String) (hsOK regOK : Bool)
    (maxMsgSize hardLimit : Nat) (p : PeerState) (msgs : List Inbound) :
    List NodeRecord × SessionEnd :=
  if uselessDisconnect banned trusted name then
    ([], SessionEnd.discUselessPeer)
  else if !hsOK then
    ([], SessionEnd.handshakeFailed)
  else if !regOK then
    ([], SessionEnd.registrationFailed)
  else
    let (rs, e) := handleLoop maxMsgSize hardLimit p msgs
    (rs, SessionEnd.loopEnded e)

/- ## Crawler aggregation loop (`Crawler.Start` in `p2p.go`) -/

/-- A node identifier (`enode.ID`). -/
abbrev NodeID := Nat

/-- `common.NodeSet`: a map from node id to node data, as an association
list. -/
abbrev NodeSet := List (NodeID × NodeRecord)

/-- Go maps are reference values: a heap of `NodeSet` maps, addressed by
index. `Crawler.Start` allocates a fresh `output` map; `updateNode`
mutates whichever map it is handed. -/
abbrev Heap := List NodeSet

/-- One arrival in the aggregation loop's `select`: a probe result from
`c.nodes` or the `c.done` stop signal. -/
inductive CrawlEvent
  | result (id : NodeID) (r : NodeRecord)
  | stopSignal
  deriving DecidableEq, Repr

/-- The `for { select ... } }` aggregation loop in `Crawler.Start`, over a
heap so that map mutation is explicit. `updateNode` (defined outside
`src/`; modelled from the spec as the merge of one probe result into the
catalogue map it is handed) rewrites the map at `outAddr`. On a result,
the loop then calls `onUpdatedSet` when `updated % 10 == 0`; the source
declares `updated := 0` and never increments it. On the stop signal, one
final `onUpdatedSet` call fires and the loop returns. Returns the final
heap and the number of `onUpdatedSet` invocations; a drained stream
leaves the loop waiting (no further calls). -/
def aggLoop (updateNode : NodeSet → NodeID → NodeRecord → NodeSet)
    (heap : Heap) (outAddr : Nat) (updated : Nat) :
    List CrawlEvent → Heap × Nat
  | [] => (heap, 0)
  | CrawlEvent.result id r :: rest =>
    let heap' := heap.set outAddr (updateNode (heap.getD outAddr []) id r)
    let calls := if updated % 10 = 0 then 1 else 0
    let next := aggLoop updateNode heap' outAddr updated rest
    (next.1, calls + next.2)
  | CrawlEvent.stopSignal :: _ => (heap, 1)

/-- The goroutine body of `Crawler.Start`: allocate `output` as a fresh
map, copy the caller's `input` map into it entry by entry, then run the
aggregation loop with `updated := 0`. `inAddr` is the address of the
caller's map. -/
def startAgg (updateNode : NodeSet → NodeID → NodeRecord → NodeSet)
    (heap : Heap) (inAddr : Nat) (events : List CrawlEvent) : Heap × Nat :=
  let outAddr := heap.length
  let heap' := heap ++ [heap.getD inAddr []]
  aggLoop updateNode heap' outAddr 0 events

/- ## Shutdown (`Crawler.Stop`, `ProbeBackend.Close`) -/

/-- Go panics when closing an already-closed channel. -/
inductive Panic
  | closeOfClosedChannel
  deriving DecidableEq, Repr

/-- The channel-close state owned by a crawler: `ProbeBackend.quitSync`
and `Crawler.done`. -/
structure CrawlerChans where
  quitSyncClosed : Bool
  doneClosed : Bool
  deriving DecidableEq, Repr

/-- `ProbeBackend.Close`: `close(b.quitSync)` then `b.wg.Wait()` (the
join barrier has no effect on channel state). Closing a closed channel
panics. -/
def backendClose (s : CrawlerChans) : Except Panic CrawlerChans :=
  if s.quitSyncClosed then Except.error Panic.closeOfClosedChannel
  else Except.ok { s with quitSyncClosed := true }

/-- `Crawler.Stop`: `c.server.Stop()` (external transport, no channel
effect), `c.backend.Close()`, then `close(c.done)`. -/
def crawlerStop (s : CrawlerChans) : Except Panic CrawlerChans :=
  match backendClose s with
  | Except.error e => Except.error e
  | Except.ok s' =>
    if s'.doneClosed then Except.error Panic.closeOfClosedChannel
    else Except.ok { s' with doneClosed := true }

/-- Channel state as constructed by `NewCrawler`: both channels open. -/
def initialChans : CrawlerChans := { quitSyncClosed := false, doneClosed := false }

/-- The disconnect-as-useless condition as the claim words it, for
comparison with `uselessDisconnect` (which is translated from the
source): all three of wrong name, untrusted, and banned must hold. -/
def claimedUselessRule (banned trusted : Bool) (name : String) : Bool :=
  !(nameAdvertisesOpera name) && !trusted && banned

/-- A throwaway peer state for concrete witnesses. -/
def p0 : PeerState :=
  { status := PeerStatus.unknown
    progress := { epoch := 0, lastBlockIdx := 0, lastBlockAtropos := ⟨0, 0⟩ } }

end NodeCrawler

namespace NodeCrawler

/-- Structure of the session loop's output: at most one record is
emitted; an error yields no record; the record list is `[r]` exactly
when the loop ended by emitting `r` (i.e. a terminal status was
reached). -/
theorem handleLoop_shape (M H : Nat) (msgs : List Inbound) (p : PeerState) :
    ((handleLoop M H p msgs).1.length ≤ 1)
    ∧ (∀ e, (handleLoop M H p msgs).2 = LoopEnd.errored e →
        (handleLoop M H p msgs).1 = [])
    ∧ (∀ r, (handleLoop M H p msgs).2 = LoopEnd.emitted r ↔
        (handleLoop M H p msgs).1 = [r]) := by
  induction msgs generalizing p with
  | nil => simp [handleLoop]
  | cons inb rest ih =>
    rcases hmsg : handleMsg M H p inb with ⟨p', oe⟩
    cases oe with
    | some e => simp [handleLoop, hmsg]
    | none =>
      cases ht : isTerminal p'.status with
      | true => simp [handleLoop, hmsg, ht]
      | false => simpa [handleLoop, hmsg, ht] using ih p'

/-- Once the session loop has emitted its record, it has returned: any
further inbound traffic is never read and changes nothing. -/
theorem handleLoop_emitted_stops (M H : Nat) (msgs : List Inbound) (p : PeerState)
    (r : NodeRecord) (h : (handleLoop M H p msgs).2 = LoopEnd.emitted r)
    (extra : List Inbound) :
    handleLoop M H p (msgs ++ extra) = handleLoop M H p msgs := by
  induction msgs generalizing p with
  | nil => simp [handleLoop] at h
  | cons inb rest ih =>
    rcases hmsg : handleMsg M H p inb with ⟨p', oe⟩
    cases oe with
    | some e => simp [handleLoop, hmsg] at h
    | none =>
      cases ht : isTerminal p'.status with
      | true => simp [handleLoop, hmsg, ht]
      | false =>
        simp only [handleLoop, hmsg, ht] at h
        simp only [List.cons_append, handleLoop, hmsg, ht]
        exact ih p' h

/-- Everything after the first stop signal is ignored by the aggregation
loop: it returns right after the stop-triggered final callback. -/
theorem aggLoop_ignores_after_stop (f : NodeSet → NodeID → NodeRecord → NodeSet)
    (a u : Nat) (evs extra : List CrawlEvent) (heap : Heap) :
    aggLoop f heap a u (evs ++ CrawlEvent.stopSignal :: extra)
      = aggLoop f heap a u (evs ++ [CrawlEvent.stopSignal]) := by
  induction evs generalizing heap with
  | nil => rfl
  | cons e rest ih =>
    cases e with
    | result id r => simp only [List.cons_append, aggLoop, List.append_eq, ih]
    | stopSignal => rfl

/-- C1: the aggregation loop is claimed to invoke `onUpdated` once per
10th received result (3 times for 25 results) plus once on stop. In the
source, `updated` is initialised to 0 and never incremented, so
`updated % 10 == 0` holds on every iteration and the callback fires
after every one of the 25 results plus once on stop: 26 invocations,
not 3 + 1 = 4. -/
theorem C1_callback_fires_every_result :
    (startAgg (fun s i r => (i, r) :: s) [[]] 0
      (List.replicate 25 (CrawlEvent.result 1 ⟨3⟩) ++ [CrawlEvent.stopSignal])).2 = 26
    ∧ (26 : Nat) ≠ 3 + 1 := by
  constructor
  · decide
  · decide

/-- C2 counterexample: calling `Crawler.Stop` twice panics on the second
call (Go `close` of the already-closed `done`/`quitSync` channels), and
so does calling `ProbeBackend.Close` twice; the claim that neither
panics is false. -/
theorem C2_second_stop_panics :
    (crawlerStop initialChans).bind crawlerStop
        = Except.error Panic.closeOfClosedChannel
    ∧ (backendClose initialChans).bind backendClose
        = Except.error Panic.closeOfClosedChannel := by
  constructor
  · rfl
  · rfl

/-- C2 (amended): a first `Stop()` returns normally; a second `Stop()`,
like a second `Close()`, panics by closing an already-closed channel;
and the final `onUpdated` callback fires at most once per `Start()`
lifecycle: the stop branch invokes it exactly once and the loop returns,
ignoring everything after the first stop signal. -/
theorem C2_amended_second_stop_panics :
    crawlerStop initialChans
        = Except.ok { quitSyncClosed := true, doneClosed := true }
    ∧ (crawlerStop initialChans).bind crawlerStop
        = Except.error Panic.closeOfClosedChannel
    ∧ (backendClose initialChans).bind backendClose
        = Except.error Panic.closeOfClosedChannel
    ∧ (∀ (f : NodeSet → NodeID → NodeRecord → NodeSet) (heap : Heap) (a u : Nat),
        (aggLoop f heap a u [CrawlEvent.stopSignal]).2 = 1)
    ∧ ∀ (f : NodeSet → NodeID → NodeRecord → NodeSet) (heap : Heap) (a u : Nat)
        (evs extra : List CrawlEvent),
        aggLoop f heap a u (evs ++ CrawlEvent.stopSignal :: extra)
          = aggLoop f heap a u (evs ++ [CrawlEvent.stopSignal]) := by
  refine ⟨rfl, rfl, rfl, fun f heap a u => rfl, fun f heap a u evs extra => ?_⟩
  exact aggLoop_ignores_after_stop f a u evs extra heap

/-- C3 counterexample: a peer that is NOT on the ban list, is untrusted,
and whose name lacks "opera" does not satisfy the claim's all-three
condition, yet the code disconnects it as useless (before the handshake,
not after): `useless` is an OR of ban-listing and wrong name, not an
AND. -/
theorem C3_cex_unbanned_peer_disconnected :
    uselessDisconnect false false "Geth/v1.10.23" = true
    ∧ claimedUselessRule false false "Geth/v1.10.23" = false
    ∧ handle false false "Geth/v1.10.23" true true 10 10 p0 []
        = ([], SessionEnd.discUselessPeer) := by
  refine ⟨by decide, by decide, by decide⟩

/-- C3 (amended): a peer is disconnected as useless before the handshake
exactly when it is not discovery-trusted AND (it is on the discovery-ban
list OR its name does not advertise "opera"); when that condition holds
the session ends with `DiscUselessPeer` and no message is exchanged, and
when it fails the session proceeds to the handshake and normal message
handling. -/
theorem C3_amended_disconnect_rule (banned trusted : Bool) (name : String)
    (hsOK regOK : Bool) (M H : Nat) (p : PeerState) (msgs : List Inbound) :
    uselessDisconnect banned trusted name
        = (!trusted && (banned || !(nameAdvertisesOpera name)))
    ∧ (uselessDisconnect banned trusted name = true →
        handle banned trusted name hsOK regOK M H p msgs
          = ([], SessionEnd.discUselessPeer))
    ∧ (uselessDisconnect banned trusted name = false → hsOK = true → regOK = true →
        handle banned trusted name hsOK regOK M H p msgs
          = ((handleLoop M H p msgs).1,
             SessionEnd.loopEnded (handleLoop M H p msgs).2)) := by
  refine ⟨?_, ?_, ?_⟩
  · cases hb : nameAdvertisesOpera name <;>
      cases banned <;> cases trusted <;> simp [uselessDisconnect, hb]
  · intro h
    simp [handle, h]
  · intro h hh hr
    subst hh; subst hr
    simp [handle, h]

/-- C3 witness: the amended rule applied to two concrete peers, one
disconnected pre-handshake, one proceeding to the (empty) message loop. -/
theorem C3_amended_disconnect_rule_witness :
    handle false false "Geth/v1.10.23" true true 10 10 p0 []
        = ([], SessionEnd.discUselessPeer)
    ∧ handle false false "go-opera/v1.1.2" true true 10 10 p0 []
        = ([], SessionEnd.loopEnded (LoopEnd.starved p0)) := by
  constructor
  · exact (C3_amended_disconnect_rule false false "Geth/v1.10.23" true true
      10 10 p0 []).2.1 (by decide)
  · have h := (C3_amended_disconnect_rule false false "go-opera/v1.1.2" true true
      10 10 p0 []).2.2 (by decide) rfl rfl
    simpa [handleLoop] using h

/-- C4: a progress message within the size bound replaces the stored
progress with the reported value, returns no error, and classifies the
session `Evil` exactly when the reported epoch is strictly greater than
the epoch of the reported last-block Atropos hash, `Useless` otherwise. -/
theorem C4_progress_classification (M H : Nat) (p : PeerState) (m : Msg)
    (pg : PeerProgress) (hc : m.code = ProgressMsg) (hs : m.size ≤ M)
    (hb : m.body = MsgBody.progressBody pg) :
    (handleMsg M H p (Inbound.msg m)).2 = none
    ∧ (handleMsg M H p (Inbound.msg m)).1.progress = pg
    ∧ ((handleMsg M H p (Inbound.msg m)).1.status = PeerStatus.evil
        ↔ pg.lastBlockAtropos.epoch < pg.epoch)
    ∧ ((handleMsg M H p (Inbound.msg m)).1.status = PeerStatus.useless
        ↔ ¬(pg.lastBlockAtropos.epoch < pg.epoch)) := by
  have hM : ¬(m.size > M) := by omega
  by_cases hE : pg.lastBlockAtropos.epoch < pg.epoch <;>
    simp [handleMsg, dispatchMsg, progressArm, hc, hb, hM, hE, HandshakeMsg,
      ProgressMsg]

/-- C4 witness: the spec's Scenario A — reported epoch 5 with an Atropos
hash of epoch 4 is classified `Evil`, and the progress is stored. -/
theorem C4_progress_classification_witness :
    (handleMsg 10 10 p0
        (Inbound.msg ⟨ProgressMsg, 5, MsgBody.progressBody ⟨5, 100, ⟨4, 0⟩⟩⟩)).1.status
      = PeerStatus.evil
    ∧ (handleMsg 10 10 p0
        (Inbound.msg ⟨ProgressMsg, 5, MsgBody.progressBody ⟨5, 100, ⟨4, 0⟩⟩⟩)).1.progress
      = ⟨5, 100, ⟨4, 0⟩⟩ := by
  have h := C4_progress_classification 10 10 p0
    ⟨ProgressMsg, 5, MsgBody.progressBody ⟨5, 100, ⟨4, 0⟩⟩⟩ ⟨5, 100, ⟨4, 0⟩⟩
    rfl (by decide) rfl
  exact ⟨h.2.2.1.mpr (by decide), h.2.1⟩

/-- C5: the session loop emits at most one record; an error yields no
record; exactly one record `[r]` is present exactly when the loop ended
by reaching a terminal status and emitting `r`; and after emission no
further inbound message is read (extending the stream changes nothing,
in particular the status cannot change again). -/
theorem C5_one_record_per_session (M H : Nat) (msgs : List Inbound) (p : PeerState) :
    ((handleLoop M H p msgs).1.length ≤ 1)
    ∧ (∀ e, (handleLoop M H p msgs).2 = LoopEnd.errored e →
        (handleLoop M H p msgs).1 = [])
    ∧ (∀ r, (handleLoop M H p msgs).2 = LoopEnd.emitted r ↔
        (handleLoop M H p msgs).1 = [r])
    ∧ (∀ r extra, (handleLoop M H p msgs).2 = LoopEnd.emitted r →
        handleLoop M H p (msgs ++ extra) = handleLoop M H p msgs) := by
  obtain ⟨h1, h2, h3⟩ := handleLoop_shape M H msgs p
  exact ⟨h1, h2, h3, fun r extra h => handleLoop_emitted_stops M H msgs p r h extra⟩

/-- C5 witness: a concrete session that reaches `Evil` via one progress
message emits exactly its one record, and appending further traffic
after emission changes nothing. -/
theorem C5_one_record_per_session_witness :
    (handleLoop 10 10 p0
        [Inbound.msg ⟨ProgressMsg, 5, MsgBody.progressBody ⟨5, 100, ⟨4, 0⟩⟩⟩]).1
      = [⟨100⟩]
    ∧ handleLoop 10 10 p0
        ([Inbound.msg ⟨ProgressMsg, 5, MsgBody.progressBody ⟨5, 100, ⟨4, 0⟩⟩⟩]
          ++ [Inbound.readErr])
      = handleLoop 10 10 p0
        [Inbound.msg ⟨ProgressMsg, 5, MsgBody.progressBody ⟨5, 100, ⟨4, 0⟩⟩⟩] := by
  have h := C5_one_record_per_session 10 10
    [Inbound.msg ⟨ProgressMsg, 5, MsgBody.progressBody ⟨5, 100, ⟨4, 0⟩⟩⟩] p0
  exact ⟨(h.2.2.1 ⟨100⟩).mp (by decide), h.2.2.2 ⟨100⟩ [Inbound.readErr] (by decide)⟩

/-- C6: a handshake/status message arriving in the message loop (i.e.
after the handshake) makes `handleMsg` return `ErrExtraStatusMsg` with
the session state untouched, and the session loop ends with that error
having emitted no record, whatever traffic would have followed. -/
theorem C6_extra_status_msg (M H : Nat) (p : PeerState) (m : Msg)
    (rest : List Inbound) (hc : m.code = HandshakeMsg) (hs : m.size ≤ M) :
    handleMsg M H p (Inbound.msg m)
        = (p, some (HandleErr.resp ErrCode.ErrExtraStatusMsg))
    ∧ handleLoop M H p (Inbound.msg m :: rest)
        = ([], LoopEnd.errored (HandleErr.resp ErrCode.ErrExtraStatusMsg)) := by
  have hM : ¬(m.size > M) := by omega
  have h1 : handleMsg M H p (Inbound.msg m)
      = (p, some (HandleErr.resp ErrCode.ErrExtraStatusMsg)) := by
    simp [handleMsg, dispatchMsg, hc, hM]
  exact ⟨h1, by simp [handleLoop, h1]⟩

/-- C6 witness: a concrete duplicate status message tears the session
down with `ErrExtraStatusMsg` and no record. -/
theorem C6_extra_status_msg_witness :
    handleLoop 10 10 p0 [Inbound.msg ⟨HandshakeMsg, 5, MsgBody.otherBody⟩,
        Inbound.msg ⟨ProgressMsg, 5, MsgBody.progressBody ⟨5, 100, ⟨4, 0⟩⟩⟩]
      = ([], LoopEnd.errored (HandleErr.resp ErrCode.ErrExtraStatusMsg)) :=
  (C6_extra_status_msg 10 10 p0 ⟨HandshakeMsg, 5, MsgBody.otherBody⟩
    [Inbound.msg ⟨ProgressMsg, 5, MsgBody.progressBody ⟨5, 100, ⟨4, 0⟩⟩⟩]
    rfl (by decide)).2

/-- C7: a streamed-chunk events response errors out (tearing the session
down with no record) when it carries neither identifiers nor event
payloads and when it carries both; a chunk carrying only event payloads
classifies the session `Useless`, after which the loop emits its one
record. -/
theorem C7_stream_chunk_contents (M H : Nat) (p : PeerState) (m : Msg)
    (ids : List AtroposHash) (events : List Nat) (rest : List Inbound)
    (hc : m.code = EventsStreamResponse) (hs : m.size ≤ M)
    (hb : m.body = MsgBody.chunkBody ids events) :
    (ids = [] → events = [] →
      handleLoop M H p (Inbound.msg m :: rest)
        = ([], LoopEnd.errored HandleErr.eitherEventsOrHashes))
    ∧ (ids ≠ [] → events ≠ [] →
      handleLoop M H p (Inbound.msg m :: rest)
        = ([], LoopEnd.errored HandleErr.eitherEventsOrHashes))
    ∧ (ids = [] → events ≠ [] →
      handleMsg M H p (Inbound.msg m)
          = ({ p with status := PeerStatus.useless }, none)
      ∧ handleLoop M H p (Inbound.msg m :: rest)
          = ([⟨p.progress.lastBlockIdx⟩],
             LoopEnd.emitted ⟨p.progress.lastBlockIdx⟩)) := by
  have hM : ¬(m.size > M) := by omega
  refine ⟨?_, ?_, ?_⟩
  · rintro rfl rfl
    have hmsg : handleMsg M H p (Inbound.msg m)
        = (p, some HandleErr.eitherEventsOrHashes) := by
      simp [handleMsg, dispatchMsg, streamChunkArm, hc, hb, hM, HandshakeMsg, ProgressMsg,
        EvmTxsMsg, NewEvmTxHashesMsg, GetEvmTxsMsg, EventsMsg, NewEventIDsMsg,
        GetEventsMsg, RequestEventsStream, EventsStreamResponse]
    simp [handleLoop, hmsg]
  · intro hi he
    obtain ⟨i, is, rfl⟩ := List.exists_cons_of_ne_nil hi
    obtain ⟨e, es, rfl⟩ := List.exists_cons_of_ne_nil he
    have hmsg : handleMsg M H p (Inbound.msg m)
        = (p, some HandleErr.eitherEventsOrHashes) := by
      simp [handleMsg, dispatchMsg, streamChunkArm, hc, hb, hM, HandshakeMsg, ProgressMsg,
        EvmTxsMsg, NewEvmTxHashesMsg, GetEvmTxsMsg, EventsMsg, NewEventIDsMsg,
        GetEventsMsg, RequestEventsStream, EventsStreamResponse]
    simp [handleLoop, hmsg]
  · intro hi he
    subst hi
    obtain ⟨e, es, rfl⟩ := List.exists_cons_of_ne_nil he
    have hmsg : handleMsg M H p (Inbound.msg m)
        = ({ p with status := PeerStatus.useless }, none) := by
      simp [handleMsg, dispatchMsg, streamChunkArm, hc, hb, hM, HandshakeMsg, ProgressMsg,
        EvmTxsMsg, NewEvmTxHashesMsg, GetEvmTxsMsg, EventsMsg, NewEventIDsMsg,
        GetEventsMsg, RequestEventsStream, EventsStreamResponse]
    refine ⟨hmsg, ?_⟩
    simp [handleLoop, hmsg, isTerminal]

/-- C7 witness: the spec's Scenario D — a chunk with both an id and an
event errors; a chunk with only events emits the `Useless` record. -/
theorem C7_stream_chunk_contents_witness :
    handleLoop 10 10 p0
        [Inbound.msg ⟨EventsStreamResponse, 5, MsgBody.chunkBody [⟨1, 0⟩] [2]⟩]
      = ([], LoopEnd.errored HandleErr.eitherEventsOrHashes)
    ∧ handleLoop 10 10 p0
        [Inbound.msg ⟨EventsStreamResponse, 5, MsgBody.chunkBody [] [2]⟩]
      = ([⟨0⟩], LoopEnd.emitted ⟨0⟩) := by
  constructor
  · exact (C7_stream_chunk_contents 10 10 p0
      ⟨EventsStreamResponse, 5, MsgBody.chunkBody [⟨1, 0⟩] [2]⟩ [⟨1, 0⟩] [2] []
      rfl (by decide) rfl).2.1 (by decide) (by decide)
  · exact ((C7_stream_chunk_contents 10 10 p0
      ⟨EventsStreamResponse, 5, MsgBody.chunkBody [] [2]⟩ [] [2] []
      rfl (by decide) rfl).2.2 rfl (by decide)).2

/-- C8: any message whose encoded size exceeds the maximum is rejected
with `ErrMsgTooLarge` regardless of its code; and for the list-carrying
messages (events, event-id announcements, event requests), zero items
yields `ErrEmptyMessage` while more than the hard cap yields
`ErrMsgTooLarge`, both via `checkLenLimits`. -/
theorem C8_size_and_item_limits (M H : Nat) (p : PeerState) (m : Msg) :
    (m.size > M →
      handleMsg M H p (Inbound.msg m)
        = (p, some (HandleErr.resp ErrCode.ErrMsgTooLarge)))
    ∧ (checkLenLimits H 0 = some ErrCode.ErrEmptyMessage)
    ∧ (∀ n, n > H → checkLenLimits H n = some ErrCode.ErrMsgTooLarge)
    ∧ (∀ es : List Nat, m.code = EventsMsg → m.size ≤ M →
        m.body = MsgBody.eventsBody es →
        (es.length = 0 →
          handleMsg M H p (Inbound.msg m)
            = (p, some (HandleErr.resp ErrCode.ErrEmptyMessage)))
        ∧ (es.length > H →
          handleMsg M H p (Inbound.msg m)
            = (p, some (HandleErr.resp ErrCode.ErrMsgTooLarge))))
    ∧ (∀ hsh : List AtroposHash,
        (m.code = NewEventIDsMsg ∨ m.code = GetEventsMsg) → m.size ≤ M →
        m.body = MsgBody.hashesBody hsh →
        (hsh.length = 0 →
          handleMsg M H p (Inbound.msg m)
            = (p, some (HandleErr.resp ErrCode.ErrEmptyMessage)))
        ∧ (hsh.length > H →
          handleMsg M H p (Inbound.msg m)
            = (p, some (HandleErr.resp ErrCode.ErrMsgTooLarge)))) := by
  refine ⟨?_, ?_, ?_, ?_, ?_⟩
  · intro h
    simp [handleMsg, dispatchMsg, h]
  · rfl
  · intro n hn
    have h0 : ¬(n ≤ 0) := by omega
    simp [checkLenLimits, h0, hn]
  · intro es hc hsz hb
    have hM : ¬(m.size > M) := by omega
    constructor
    · intro hlen
      simp [handleMsg, dispatchMsg, eventsArm, hc, hb, hM, hlen, checkLenLimits, HandshakeMsg,
        ProgressMsg, EvmTxsMsg, NewEvmTxHashesMsg, GetEvmTxsMsg, EventsMsg]
    · intro hlen
      have h0 : ¬(es.length ≤ 0) := by omega
      simp [handleMsg, dispatchMsg, eventsArm, hc, hb, hM, hlen, h0, checkLenLimits, HandshakeMsg,
        ProgressMsg, EvmTxsMsg, NewEvmTxHashesMsg, GetEvmTxsMsg, EventsMsg]
  · intro hsh hc hsz hb
    have hM : ¬(m.size > M) := by omega
    cases hc with
    | inl hc =>
      constructor
      · intro hlen
        simp [handleMsg, dispatchMsg, newEventIDsArm, hc, hb, hM, hlen, checkLenLimits, HandshakeMsg,
          ProgressMsg, EvmTxsMsg, NewEvmTxHashesMsg, GetEvmTxsMsg, EventsMsg,
          NewEventIDsMsg]
      · intro hlen
        have h0 : ¬(hsh.length ≤ 0) := by omega
        simp [handleMsg, dispatchMsg, newEventIDsArm, hc, hb, hM, hlen, h0, checkLenLimits,
          HandshakeMsg, ProgressMsg, EvmTxsMsg, NewEvmTxHashesMsg, GetEvmTxsMsg,
          EventsMsg, NewEventIDsMsg]
    | inr hc =>
      constructor
      · intro hlen
        simp [handleMsg, dispatchMsg, getEventsArm, hc, hb, hM, hlen, checkLenLimits, HandshakeMsg,
          ProgressMsg, EvmTxsMsg, NewEvmTxHashesMsg, GetEvmTxsMsg, EventsMsg,
          NewEventIDsMsg, GetEventsMsg]
      · intro hlen
        have h0 : ¬(hsh.length ≤ 0) := by omega
        simp [handleMsg, dispatchMsg, getEventsArm, hc, hb, hM, hlen, h0, checkLenLimits,
          HandshakeMsg, ProgressMsg, EvmTxsMsg, NewEvmTxHashesMsg, GetEvmTxsMsg,
          EventsMsg, NewEventIDsMsg, GetEventsMsg]

/-- C8 witness: an oversized no-op-code message is rejected as too
large; an empty events list is rejected as empty; three announced ids
against a hard cap of two are rejected as too large. -/
theorem C8_size_and_item_limits_witness :
    handleMsg 1 10 p0 (Inbound.msg ⟨EvmTxsMsg, 5, MsgBody.otherBody⟩)
      = (p0, some (HandleErr.resp ErrCode.ErrMsgTooLarge))
    ∧ handleMsg 10 2 p0 (Inbound.msg ⟨EventsMsg, 5, MsgBody.eventsBody []⟩)
      = (p0, some (HandleErr.resp ErrCode.ErrEmptyMessage))
    ∧ handleMsg 10 2 p0
        (Inbound.msg ⟨NewEventIDsMsg, 5, MsgBody.hashesBody [⟨1, 0⟩, ⟨2, 0⟩, ⟨3, 0⟩]⟩)
      = (p0, some (HandleErr.resp ErrCode.ErrMsgTooLarge)) := by
  refine ⟨?_, ?_, ?_⟩
  · exact (C8_size_and_item_limits 1 10 p0 ⟨EvmTxsMsg, 5, MsgBody.otherBody⟩).1
      (by decide)
  · exact ((C8_size_and_item_limits 10 2 p0
      ⟨EventsMsg, 5, MsgBody.eventsBody []⟩).2.2.2.1 [] rfl (by decide) rfl).1 rfl
  · exact ((C8_size_and_item_limits 10 2 p0
      ⟨NewEventIDsMsg, 5, MsgBody.hashesBody [⟨1, 0⟩, ⟨2, 0⟩, ⟨3, 0⟩]⟩).2.2.2.2
      [⟨1, 0⟩, ⟨2, 0⟩, ⟨3, 0⟩] (Or.inl rfl) (by decide) rfl).2 (by decide)

/-- The progress arm either succeeds or leaves the state alone. -/
theorem progressArm_frame (p q : PeerState) (b : MsgBody) (e : HandleErr)
    (h : progressArm p b = (q, some e)) : q = p := by
  cases b <;> simp only [progressArm] at h
  case progressBody pg =>
    split at h <;> exact Option.noConfusion (congrArg Prod.snd h)
  all_goals exact (congrArg Prod.fst h).symm

/-- The events arm either succeeds or leaves the state alone. -/
theorem eventsArm_frame (H : Nat) (p q : PeerState) (b : MsgBody) (e : HandleErr)
    (h : eventsArm H p b = (q, some e)) : q = p := by
  cases b <;> simp only [eventsArm] at h
  case eventsBody events =>
    split at h <;> exact (congrArg Prod.fst h).symm
  all_goals exact (congrArg Prod.fst h).symm

/-- The event-id announce arm either succeeds or leaves the state alone. -/
theorem newEventIDsArm_frame (H : Nat) (p q : PeerState) (b : MsgBody) (e : HandleErr)
    (h : newEventIDsArm H p b = (q, some e)) : q = p := by
  cases b <;> simp only [newEventIDsArm] at h
  case hashesBody hs =>
    split at h <;> exact (congrArg Prod.fst h).symm
  all_goals exact (congrArg Prod.fst h).symm

/-- The event-request arm either succeeds or leaves the state alone. -/
theorem getEventsArm_frame (H : Nat) (p q : PeerState) (b : MsgBody) (e : HandleErr)
    (h : getEventsArm H p b = (q, some e)) : q = p := by
  cases b <;> simp only [getEventsArm] at h
  case hashesBody hs =>
    split at h <;> exact (congrArg Prod.fst h).symm
  all_goals exact (congrArg Prod.fst h).symm

/-- The stream-chunk arm either succeeds or leaves the state alone. -/
theorem streamChunkArm_frame (p q : PeerState) (b : MsgBody) (e : HandleErr)
    (h : streamChunkArm p b = (q, some e)) : q = p := by
  cases b <;> simp only [streamChunkArm] at h
  case chunkBody ids events =>
    split at h
    · exact (congrArg Prod.fst h).symm
    · split at h
      · exact (congrArg Prod.fst h).symm
      · split at h
        · exact Option.noConfusion (congrArg Prod.snd h)
        · exact (congrArg Prod.fst h).symm
  all_goals exact (congrArg Prod.fst h).symm

/-- C9: whenever `handleMsg` returns an error, the session state it
returns is exactly the state it was given: no error path assigns to the
session's status or progress first. -/
theorem C9_error_preserves_state (M H : Nat) (p p' : PeerState) (inb : Inbound)
    (e : HandleErr) (h : handleMsg M H p inb = (p', some e)) : p' = p := by
  cases inb with
  | readErr => exact (congrArg Prod.fst h).symm
  | msg m =>
    simp only [handleMsg] at h
    unfold dispatchMsg at h
    by_cases c0 : m.size > M
    · rw [if_pos c0] at h; exact (congrArg Prod.fst h).symm
    rw [if_neg c0] at h
    by_cases c1 : m.code = HandshakeMsg
    · rw [if_pos c1] at h; exact (congrArg Prod.fst h).symm
    rw [if_neg c1] at h
    by_cases c2 : m.code = ProgressMsg
    · rw [if_pos c2] at h; exact progressArm_frame p p' m.body e h
    rw [if_neg c2] at h
    by_cases c3 : m.code = EvmTxsMsg
    · rw [if_pos c3] at h; exact Option.noConfusion (congrArg Prod.snd h)
    rw [if_neg c3] at h
    by_cases c4 : m.code = NewEvmTxHashesMsg
    · rw [if_pos c4] at h; exact Option.noConfusion (congrArg Prod.snd h)
    rw [if_neg c4] at h
    by_cases c5 : m.code = GetEvmTxsMsg
    · rw [if_pos c5] at h; exact Option.noConfusion (congrArg Prod.snd h)
    rw [if_neg c5] at h
    by_cases c6 : m.code = EventsMsg
    · rw [if_pos c6] at h; exact eventsArm_frame H p p' m.body e h
    rw [if_neg c6] at h
    by_cases c7 : m.code = NewEventIDsMsg
    · rw [if_pos c7] at h; exact newEventIDsArm_frame H p p' m.body e h
    rw [if_neg c7] at h
    by_cases c8 : m.code = GetEventsMsg
    · rw [if_pos c8] at h; exact getEventsArm_frame H p p' m.body e h
    rw [if_neg c8] at h
    by_cases c9 : m.code = RequestEventsStream
    · rw [if_pos c9] at h; exact Option.noConfusion (congrArg Prod.snd h)
    rw [if_neg c9] at h
    by_cases c10 : m.code = EventsStreamResponse
    · rw [if_pos c10] at h; exact streamChunkArm_frame p p' m.body e h
    rw [if_neg c10] at h
    by_cases c11 : m.code = RequestBVsStream
    · rw [if_pos c11] at h; exact Option.noConfusion (congrArg Prod.snd h)
    rw [if_neg c11] at h
    by_cases c12 : m.code = BVsStreamResponse
    · rw [if_pos c12] at h; exact Option.noConfusion (congrArg Prod.snd h)
    rw [if_neg c12] at h
    by_cases c13 : m.code = RequestBRsStream
    · rw [if_pos c13] at h; exact Option.noConfusion (congrArg Prod.snd h)
    rw [if_neg c13] at h
    by_cases c14 : m.code = BRsStreamResponse
    · rw [if_pos c14] at h; exact Option.noConfusion (congrArg Prod.snd h)
    rw [if_neg c14] at h
    by_cases c15 : m.code = RequestEPsStream
    · rw [if_pos c15] at h; exact Option.noConfusion (congrArg Prod.snd h)
    rw [if_neg c15] at h
    by_cases c16 : m.code = EPsStreamResponse
    · rw [if_pos c16] at h; exact Option.noConfusion (congrArg Prod.snd h)
    rw [if_neg c16] at h
    exact (congrArg Prod.fst h).symm

/-- C9 witness: an oversized progress message errors out with the state
it was given. -/
theorem C9_error_preserves_state_witness :
    handleMsg 1 10 p0
        (Inbound.msg ⟨ProgressMsg, 5, MsgBody.progressBody ⟨5, 100, ⟨4, 0⟩⟩⟩)
      = (p0, some (HandleErr.resp ErrCode.ErrMsgTooLarge))
    ∧ p0 = p0 :=
  ⟨by decide,
   C9_error_preserves_state 1 10 p0 p0
     (Inbound.msg ⟨ProgressMsg, 5, MsgBody.progressBody ⟨5, 100, ⟨4, 0⟩⟩⟩)
     (HandleErr.resp ErrCode.ErrMsgTooLarge) (by decide)⟩

/-- The aggregation loop writes only to the map at its output address:
every other heap cell is untouched by any sequence of events. -/
theorem aggLoop_preserves_other_addr (f : NodeSet → NodeID → NodeRecord → NodeSet)
    (outAddr i u : Nat) (hne : i ≠ outAddr) (evs : List CrawlEvent) (heap : Heap) :
    (aggLoop f heap outAddr u evs).1.getD i [] = heap.getD i [] := by
  induction evs generalizing heap with
  | nil => rfl
  | cons ev rest ih =>
    cases ev with
    | result id r =>
      simp only [aggLoop]
      rw [ih]
      rw [List.getD_eq_getD_get?, List.getD_eq_getD_get?, List.get?_eq_getElem?,
        List.get?_eq_getElem?, List.getElem?_set_ne (Ne.symm hne),
        ← List.get?_eq_getElem?, ← List.getD_eq_getD_get?]
    | stopSignal => rfl

/-- C10: `Crawler.Start` allocates its catalogue at a fresh address and
copies the caller's input map into it before the loop runs, so however
many probe results are merged (for any merge function `updateNode`), the
caller's map is unchanged afterwards; and the fresh copy initially holds
exactly the input map's contents. -/
theorem C10_input_map_never_mutated (f : NodeSet → NodeID → NodeRecord → NodeSet)
    (heap : Heap) (inAddr : Nat) (events : List CrawlEvent)
    (h : inAddr < heap.length) :
    (startAgg f heap inAddr events).1.getD inAddr [] = heap.getD inAddr []
    ∧ (heap ++ [heap.getD inAddr []]).getD heap.length [] = heap.getD inAddr [] := by
  constructor
  · unfold startAgg
    rw [aggLoop_preserves_other_addr f heap.length inAddr 0 (by omega) events
      (heap ++ [heap.getD inAddr []])]
    exact List.getD_append heap [heap.getD inAddr []] [] inAddr h
  · rw [List.getD_append_right _ _ _ _ (Nat.le_refl _)]
    simp

/-- C10 witness: a concrete two-map heap where five results are merged
by an inserting merge function, leaving the input map untouched. -/
theorem C10_input_map_never_mutated_witness :
    (startAgg (fun s i r => (i, r) :: s) [[(5, ⟨7⟩)]] 0
        (List.replicate 5 (CrawlEvent.result 1 ⟨3⟩) ++ [CrawlEvent.stopSignal])).1.getD 0 []
      = [(5, ⟨7⟩)]
    ∧ (0 : Nat) < 1 :=
  ⟨(C10_input_map_never_mutated (fun s i r => (i, r) :: s) [[(5, ⟨7⟩)]] 0
      (List.replicate 5 (CrawlEvent.result 1 ⟨3⟩) ++ [CrawlEvent.stopSignal])
      (by decide)).1,
   by decide⟩

end NodeCrawler
